import Mathlib

/-!
Verification development for the pokemon-breeder repository.

The repository ships a React frontend (App.js, api.js, PokemonSearch.js,
ParentPanel.js, ResultsPanel.js, TipsPanel.js, i18n.js) that talks to a
FastAPI backend whose core probability engine lives in backend/breeding.py.
The backend sources are not part of the checked tree, so the engine itself
is modelled from the specification (spec.md): every such definition carries
a doc comment starting with "Modelled from the spec:".  Frontend behaviour
(egg estimates, request assembly, API error handling) is embedded directly
from the JavaScript sources.

Probabilities are embedded as exact rationals.  The engine is specified to
be exact combinatorics, and every constant it manipulates (1/2, 1/32, 3/5,
4/5, 1/25) is an exact rational, so a statement that holds with equality
over the rationals in particular holds within any floating-point tolerance
the spec allows.
-/

namespace Breeder

/-- Stat axes in App.js order (STAT_NAMES): HP, Atk, Def, SpA, SpD, Spe. -/
abbrev StatAxis := Fin 6

/-- Held items offered by the ParentPanel HELD_ITEMS dropdown:
"none", "destiny_knot", "everstone", and the six "power_*" items.
In the spec's HeldItemEffect terms, destiny_knot is the pairing-lock,
everstone is the trait-lock, and power i is the per-stat-forcer for
axis i.  Each parent holds exactly one item (the dropdown is single
choice), matching the spec invariant "at most one effect is active per
parent". -/
inductive HeldItem where
  | none
  | destinyKnot
  | everstone
  | power (axis : StatAxis)
deriving DecidableEq

/-- Labels for the two parents of a breeding request. -/
inductive ParentTag where
  | A
  | B
deriving DecidableEq

/-- One parent's stat-relevant configuration: six perfect-IV flags (the
spec's StatVector, fixed at length 6 by construction) plus the held item. -/
structure StatParent where
  ivs : StatAxis → Bool
  item : HeldItem

/-- The stat-engine part of a BreedingRequest: the two parents. -/
structure StatRequest where
  a : StatParent
  b : StatParent

/-- Axis forced by a per-stat-forcer item, if this item is one. -/
def HeldItem.powerAxis : HeldItem → Option StatAxis
  | .power i => Option.some i
  | _ => Option.none

/-- Modelled from the spec: Stat-Slot Resolver inherited count (section 4.1,
backend/breeding.py is absent).  Base inherited count is 3; if either parent
holds the pairing-lock (destiny_knot) the count is 5, not additive when both
hold it. -/
def inheritedCount (r : StatRequest) : ℕ :=
  if r.a.item = HeldItem.destinyKnot ∨ r.b.item = HeldItem.destinyKnot then 5 else 3

/-- One resolver scenario: a weight and the forced slot (axis, owning
parent), if any.  Modelled from the spec: the resolver output of section
4.1, where the both-forcers case yields two weighted scenarios. -/
structure Branch where
  weight : ℚ
  forced : Option (StatAxis × ParentTag)
deriving DecidableEq

/-- Modelled from the spec: the resolver's scenario list (section 4.1,
backend/breeding.py is absent).  Exactly one forcer active forces its axis
to the holder with weight 1; both parents holding forcers yields two
scenarios of weight 1/2 each, one per parent's forcer; otherwise a single
unforced scenario. -/
def branches (r : StatRequest) : List Branch :=
  match r.a.item.powerAxis, r.b.item.powerAxis with
  | Option.some i, Option.some j =>
      [⟨1 / 2, Option.some (i, ParentTag.A)⟩, ⟨1 / 2, Option.some (j, ParentTag.B)⟩]
  | Option.some i, Option.none => [⟨1, Option.some (i, ParentTag.A)⟩]
  | Option.none, Option.some j => [⟨1, Option.some (j, ParentTag.B)⟩]
  | Option.none, Option.none => [⟨1, Option.none⟩]

/-- Numeric value of a perfect-IV flag. -/
def ivq (b : Bool) : ℚ := if b then 1 else 0

/-- The IV flags of the parent designated by a tag. -/
def parentIvs (r : StatRequest) : ParentTag → StatAxis → Bool
  | ParentTag.A => r.a.ivs
  | ParentTag.B => r.b.ivs

/-- Modelled from the spec: probability that a given unforced axis is among
the randomly inherited ones (section 4.2, backend/breeding.py is absent).
With a forced slot, the remaining inheritedCount - 1 slots are drawn from
the other 5 axes; with no forcer all inheritedCount slots are drawn from
all 6 axes. -/
def randShare (hasForced : Bool) (n : ℕ) : ℚ :=
  if hasForced then ((n : ℚ) - 1) / 5 else (n : ℚ) / 6

/-- Modelled from the spec: marginal perfect-probability of an axis that is
not forced (section 4.2, backend/breeding.py is absent).  With probability
s the axis is randomly inherited (then perfect with probability the mean of
the two parents' flags), otherwise it is a fresh draw, perfect with
probability 1/32. -/
def randMarg (r : StatRequest) (s : ℚ) (i : StatAxis) : ℚ :=
  s * ((ivq (r.a.ivs i) + ivq (r.b.ivs i)) / 2) + (1 - s) * (1 / 32)

/-- Modelled from the spec: per-axis marginal perfect-probability in a
resolver scenario (section 4.2, backend/breeding.py is absent).  A forced
axis is inherited from its owning parent, so its marginal is that parent's
flag; any other axis uses the random-inheritance marginal. -/
def marginal (r : StatRequest) (br : Branch) (i : StatAxis) : ℚ :=
  match br.forced with
  | Option.some (j, p) =>
      if i = j then ivq (parentIvs r p i)
      else randMarg r (randShare true (inheritedCount r)) i
  | Option.none => randMarg r (randShare false (inheritedCount r)) i

/-- The six per-axis marginals of a scenario, in axis order. -/
def margList (r : StatRequest) (br : Branch) : List ℚ :=
  (List.finRange 6).map (marginal r br)

/-- Modelled from the spec: the Poisson-binomial convolution (section 4.2,
backend/breeding.py is absent).  pbExact ps k is the probability of exactly
k successes among independent Bernoulli trials with success probabilities
ps, obtained by folding one trial at a time into a running
count-distribution. -/
def pbExact : List ℚ → ℕ → ℚ
  | [], 0 => 1
  | [], _ + 1 => 0
  | p :: ps, 0 => (1 - p) * pbExact ps 0
  | p :: ps, k + 1 => (1 - p) * pbExact ps (k + 1) + p * pbExact ps k

/-- Distribution row of a single resolver scenario. -/
def branchRow (r : StatRequest) (br : Branch) (k : ℕ) : ℚ :=
  pbExact (margList r br) k

/-- Modelled from the spec: the results row for perfectCount = k, the
scenario-weight-average of the per-scenario Poisson-binomial rows
(sections 4.1-4.2, backend/breeding.py is absent). -/
def resultRow (r : StatRequest) (k : ℕ) : ℚ :=
  ((branches r).map (fun br => br.weight * branchRow r br k)).sum

/-- Number of axes the caller wants perfect (popcount of the target
StatVector). -/
def targetCount (t : StatAxis → Bool) : ℕ :=
  ((List.finRange 6).filter (fun i => t i)).length

/-- Modelled from the spec: single-scenario target-match probability, the
product of the marginals of the targeted axes only (section 4.2,
backend/breeding.py is absent). -/
def branchTarget (r : StatRequest) (br : Branch) (t : StatAxis → Bool) : ℚ :=
  (((List.finRange 6).filter (fun i => t i)).map (marginal r br)).prod

/-- Modelled from the spec: target-match exact probability of a request,
scenario-weight-averaged like the general rows (section 4.2,
backend/breeding.py is absent). -/
def targetMatch (r : StatRequest) (t : StatAxis → Bool) : ℚ :=
  ((branches r).map (fun br => br.weight * branchTarget r br t)).sum

/-- Probability of at least k successes among independent Bernoulli trials
with success probabilities ps. -/
def pbAtLeast : List ℚ → ℕ → ℚ
  | [], 0 => 1
  | [], _ + 1 => 0
  | p :: ps, k => (1 - p) * pbAtLeast ps k + p * pbAtLeast ps (k - 1)

/-- Product of the probabilities of the selected trials. -/
def selProd : List (ℚ × Bool) → ℚ
  | [] => 1
  | pc :: rest => (if pc.2 then pc.1 else 1) * selProd rest

/-- Number of selected trials. -/
def selCount : List (ℚ × Bool) → ℕ
  | [] => 0
  | pc :: rest => (if pc.2 then 1 else 0) + selCount rest

/-! Concrete fixtures used by the closed-form theorems below. -/

/-- Both parents perfect on all six axes, parent A holding destiny_knot. -/
def reqKnotPerfect : StatRequest :=
  ⟨⟨fun _ => true, HeldItem.destinyKnot⟩, ⟨fun _ => true, HeldItem.none⟩⟩

/-- Target StatVector selecting the first five axes (popcount 5). -/
def targetFive : StatAxis → Bool := fun i => decide (i.val < 5)

/-- A parent perfect on all axes holding no item. -/
def parentPlain : StatParent := ⟨fun _ => true, HeldItem.none⟩

/-- A parent perfect on all axes holding the HP per-stat-forcer. -/
def parentForceHP : StatParent := ⟨fun _ => true, HeldItem.power 0⟩

/-- A parent perfect on all axes holding destiny_knot. -/
def parentKnot : StatParent := ⟨fun _ => true, HeldItem.destinyKnot⟩

/-! The Trait-Inheritance Engine (natures). -/

/-- The trait catalog: the 25 natures served by the /api/natures endpoint. -/
abbrev Nature := Fin 25

/-- A parent's nature-relevant configuration: its nature and held item
(everstone is the trait-lock). -/
structure NatureParent where
  nature : Nature
  item : HeldItem

/-- Whether this parent's held item is the trait-lock (everstone). -/
def hasTraitLock (p : NatureParent) : Bool :=
  decide (p.item = HeldItem.everstone)

/-- Modelled from the spec: the Trait-Inheritance Engine (section 4.3,
backend/breeding.py is absent).  natureProb a b x is the probability that
the offspring's nature is x: with no trait-lock a uniform draw over the
25-nature catalog; with exactly one lock the locking parent's nature with
certainty; with both locked a half-half mix of the two parents' natures. -/
def natureProb (a b : NatureParent) (x : Nature) : ℚ :=
  if hasTraitLock a ∧ hasTraitLock b then
    (if x = a.nature then 1 / 2 else 0) + (if x = b.nature then 1 / 2 else 0)
  else if hasTraitLock a then (if x = a.nature then 1 else 0)
  else if hasTraitLock b then (if x = b.nature then 1 else 0)
  else 1 / 25

/-! The Special-Trait Engine (abilities). -/

/-- Modelled from the spec: a parent's special-trait configuration (section
4.4, backend/breeding.py is absent).  regular lists the regular-variant
slot names, primary first (one or two entries); hidden is the
hidden-variant name when carried; femaleDesignated is the spec's
"female-designated parent by convention"; isUniversalDonor marks the
cross-species universal donor (Ditto), which carries no special trait of
its own. -/
structure AbilityParent where
  regular : List String
  hidden : Option String
  femaleDesignated : Bool
  isUniversalDonor : Bool

/-- Whether the parent carries the hidden variant. -/
def hasHiddenVariant (p : AbilityParent) : Bool := p.hidden.isSome

/-- Modelled from the spec: donor selection (section 4.4,
backend/breeding.py is absent).  If a universal donor is involved the
donor is the other parent; otherwise the donor is the female-designated
parent (the male-designated parent's special trait never transmits). -/
def donor (a b : AbilityParent) : AbilityParent :=
  if a.isUniversalDonor then b
  else if b.isUniversalDonor then a
  else if a.femaleDesignated then a else b

/-- Modelled from the spec: probability the offspring gets the hidden
variant (section 4.4): 0.6 when the donor carries it, 0 otherwise. -/
def hiddenProb (d : AbilityParent) : ℚ :=
  if hasHiddenVariant d then 3 / 5 else 0

/-- Modelled from the spec: probability the offspring gets the donor's
primary regular slot (section 4.4 and the single-slot rule of section 9):
the non-hidden remainder, split 0.8 to the primary slot when a secondary
slot exists, all of it otherwise. -/
def primaryProb (d : AbilityParent) : ℚ :=
  (1 - hiddenProb d) * (if 2 ≤ d.regular.length then 4 / 5 else 1)

/-- Modelled from the spec: probability the offspring gets the donor's
secondary regular slot (section 4.4): 0.2 of the non-hidden remainder when
that slot exists, 0 otherwise. -/
def secondaryProb (d : AbilityParent) : ℚ :=
  (1 - hiddenProb d) * (if 2 ≤ d.regular.length then 1 / 5 else 0)

/-- Whether a parent carries any form of a named special trait, in a
regular slot or as the hidden variant. -/
def carries (p : AbilityParent) (t : String) : Bool :=
  decide (t ∈ p.regular ∨ p.hidden = Option.some t)

/-- Modelled from the spec: probability that the offspring ends up with the
named special trait, summing the slots of the donor that bear this name
(sections 4.4 and 7, backend/breeding.py is absent). -/
def targetProb (d : AbilityParent) (t : String) : ℚ :=
  (if d.hidden = Option.some t then hiddenProb d else 0)
    + (if d.regular[0]? = Option.some t then primaryProb d else 0)
    + (if d.regular[1]? = Option.some t then secondaryProb d else 0)

/-- Error kinds of the engine (section 7).  ImpossibleOutcome is not an
error and therefore not listed here: it is an ok result with probability
zero. -/
inductive EngineError where
  | invalidConfiguration (reason : String)
deriving DecidableEq

/-- Result section produced by the Special-Trait Engine: the probability
and the impossible-outcome marker. -/
structure SpecialTraitResult where
  probability : ℚ
  impossibleOutcome : Bool
deriving DecidableEq

/-- Modelled from the spec: the special-trait slice of a raw
BreedingRequest as it reaches the engine: unvalidated StatVectors (lists),
the two parents' special-trait configurations and the queried trait
(sections 3, 4.4 and 7, backend/breeding.py is absent). -/
structure SpecialTraitRequest where
  parent_a_ivs : List Bool
  parent_b_ivs : List Bool
  parentA : AbilityParent
  parentB : AbilityParent
  target : String

/-- Modelled from the spec: the Special-Trait Engine entry point (sections
4.4 and 7, backend/breeding.py is absent).  InvalidConfiguration (here: a
malformed StatVector length) is detected before any enumeration and
surfaced as an error with no partial result; a query neither parent can
satisfy is an ok result with probability 0 marked impossibleOutcome. -/
def specialTraitEngine (r : SpecialTraitRequest) : Except EngineError SpecialTraitResult :=
  if r.parent_a_ivs.length ≠ 6 then
    Except.error (EngineError.invalidConfiguration "parent A StatVector length")
  else if r.parent_b_ivs.length ≠ 6 then
    Except.error (EngineError.invalidConfiguration "parent B StatVector length")
  else
    Except.ok
      ⟨targetProb (donor r.parentA r.parentB) r.target,
       !(carries r.parentA r.target || carries r.parentB r.target)⟩

/-! Frontend code embedded from the JavaScript sources. -/

/-- From ResultsPanel.js, row rendering: the egg estimate is
Math.ceil(1 / probability) when the probability is positive, and the
sentinel text (the "---" dash, modelled as Option.none) otherwise. -/
def eggsEstimate (p : ℚ) : Option ℤ :=
  if 0 < p then Option.some ⌈1 / p⌉ else Option.none

/-- From App.js handleCalculate: a parent counts as selected when its
pokemonId is truthy (not null and not 0). -/
def truthyId : Option ℕ → Bool
  | Option.none => false
  | Option.some n => !(n == 0)

/-- From App.js handleCalculate: the payload field breeding_with_ditto is
parentA.pokemonId === 132 || parentB.pokemonId === 132 (132 is Ditto). -/
def breedingWithDitto (aId bId : Option ℕ) : Bool :=
  (aId == Option.some 132) || (bId == Option.some 132)

/-- The slice of the POST /api/breeding/calculate payload relevant here. -/
structure Payload where
  parent_a_id : ℕ
  parent_b_id : ℕ
  breeding_with_ditto : Bool
deriving DecidableEq

/-- From App.js handleCalculate: the payload is assembled only when both
parents are selected; otherwise an error message is shown and no request
is sent (modelled as Option.none). -/
def handleCalculate (aId bId : Option ℕ) : Option Payload :=
  if truthyId aId && truthyId bId then
    Option.some ⟨aId.getD 0, bId.getD 0, breedingWithDitto aId bId⟩
  else Option.none

/-- An HTTP response as api.js sees it: the ok flag, the parsed JSON body
of the endpoint's success type, and the detail field of the error JSON
(used only by calculateBreeding).  A fetch function String → HttpResponse
stands for the network, mapping the request URL to its response. -/
structure HttpResponse (α : Type) where
  ok : Bool
  body : α
  detail : Option String

/-- From api.js searchPokemon: queries shorter than 2 characters resolve
to [] without fetching (the JS also guards a falsy query, which for
strings is the empty string, already of length 0); a non-ok response also
resolves to []. -/
def searchPokemon {α : Type} (f : String → HttpResponse (List α))
    (query : String) : Except String (List α) :=
  if query.length < 2 then Except.ok []
  else
    let res := f ("/api/pokemon/search?q=" ++ query)
    if res.ok then Except.ok res.body else Except.ok []

/-- From api.js getPokemonDetails: a non-ok response throws
Error("Pokemon not found"). -/
def getPokemonDetails {α : Type} (f : String → HttpResponse α) (id : ℕ) :
    Except String α :=
  let res := f ("/api/pokemon/" ++ toString id)
  if res.ok then Except.ok res.body else Except.error "Pokemon not found"

/-- From api.js getCompatiblePartners: a non-ok response resolves to []. -/
def getCompatiblePartners {α : Type} (f : String → HttpResponse (List α))
    (id : ℕ) : Except String (List α) :=
  let res := f ("/api/pokemon/" ++ toString id ++ "/compatible")
  if res.ok then Except.ok res.body else Except.ok []

/-- From api.js calculateBreeding: a non-ok response throws
Error(err.detail || "Calculation failed") where err is the error JSON
(defaulting to the empty object when the body fails to parse). -/
def calculateBreeding {α : Type} (f : String → HttpResponse α) :
    Except String α :=
  let res := f "/api/breeding/calculate"
  if res.ok then Except.ok res.body
  else Except.error (res.detail.getD "Calculation failed")

/-- From api.js getNatures: a non-ok response resolves to []. -/
def getNatures {α : Type} (f : String → HttpResponse (List α)) :
    Except String (List α) :=
  let res := f "/api/natures"
  if res.ok then Except.ok res.body else Except.ok []

/-- From api.js getEggGroups: a non-ok response resolves to []. -/
def getEggGroups {α : Type} (f : String → HttpResponse (List α)) :
    Except String (List α) :=
  let res := f "/api/egg-groups"
  if res.ok then Except.ok res.body else Except.ok []

/-! Fixtures for the nature and special-trait witnesses. -/

/-- A parent with nature 0 holding everstone. -/
def natureLockA : NatureParent := ⟨0, HeldItem.everstone⟩

/-- A parent with nature 1 holding no item. -/
def naturePlainB : NatureParent := ⟨1, HeldItem.none⟩

/-- A parent with nature 1 holding everstone. -/
def natureLockB : NatureParent := ⟨1, HeldItem.everstone⟩

/-- The universal donor: no special trait of its own. -/
def dittoDonor : AbilityParent := ⟨[], Option.none, false, true⟩

/-- A female-designated parent with two regular slots and the hidden
variant. -/
def femaleHA : AbilityParent :=
  ⟨["primary-a", "secondary-a"], Option.some "hidden-a", true, false⟩

/-- A male-designated parent with a single regular slot and no hidden
variant. -/
def maleNoHA : AbilityParent := ⟨["primary-b"], Option.none, false, false⟩

/-- A valid request querying a trait neither parent carries. -/
def reqImpossible : SpecialTraitRequest :=
  ⟨List.replicate 6 true, List.replicate 6 true, femaleHA, maleNoHA,
   "unrelated-trait"⟩

/-- A request whose parent A StatVector has the wrong length. -/
def reqBadIvs : SpecialTraitRequest :=
  ⟨[true], List.replicate 6 true, femaleHA, maleNoHA, "primary-a"⟩

/-- A network stub whose every response is non-ok, with a list body. -/
def badListNet : String → HttpResponse (List ℕ) := fun _ => ⟨false, [], Option.none⟩

/-- A network stub whose every response is non-ok, with a scalar body. -/
def badScalarNet : String → HttpResponse ℕ := fun _ => ⟨false, 0, Option.none⟩

/-! Basic facts about the Poisson-binomial fold. -/

theorem pbExact_eq_zero (ps : List ℚ) (k : ℕ) (h : ps.length < k) : pbExact ps k = 0 := by
  induction ps generalizing k with
  | nil =>
      match k, h with
      | n + 1, _ => rfl
  | cons p ps ih =>
      match k, h with
      | n + 1, h =>
        have h1 : ps.length < n := Nat.lt_of_succ_lt_succ (by simpa using h)
        have h2 : ps.length < n + 1 := Nat.lt_succ_of_lt h1
        simp [pbExact, ih _ h1, ih _ h2]

theorem pbExact_sum (ps : List ℚ) :
    ∑ k ∈ Finset.range (ps.length + 1), pbExact ps k = 1 := by
  induction ps with
  | nil => simp [pbExact]
  | cons p ps ih =>
      have hz : pbExact ps (ps.length + 1) = 0 :=
        pbExact_eq_zero ps _ (Nat.lt_succ_self _)
      have h3 : ∑ k ∈ Finset.range (ps.length + 1 + 1), pbExact ps k = 1 := by
        rw [Finset.sum_range_succ, ih, hz, add_zero]
      have h2 := Finset.sum_range_succ' (fun k => pbExact ps k) (ps.length + 1)
      have hA : ∑ k ∈ Finset.range (ps.length + 1), pbExact ps (k + 1)
          = 1 - pbExact ps 0 := by
        simp only [] at h2
        linarith [h2, h3]
      have hmain := Finset.sum_range_succ' (fun k => pbExact (p :: ps) k) (ps.length + 1)
      have hsplit : ∑ k ∈ Finset.range (ps.length + 1), pbExact (p :: ps) (k + 1)
          = (1 - p) * (∑ k ∈ Finset.range (ps.length + 1), pbExact ps (k + 1))
            + p * (∑ k ∈ Finset.range (ps.length + 1), pbExact ps k) := by
        rw [Finset.mul_sum, Finset.mul_sum, ← Finset.sum_add_distrib]
        exact Finset.sum_congr rfl (fun k _ => by simp [pbExact])
      have hlen : (p :: ps).length + 1 = ps.length + 1 + 1 := by simp
      rw [hlen]
      simp only [] at hmain
      rw [hmain, hsplit, hA, ih]
      have h0 : pbExact (p :: ps) 0 = (1 - p) * pbExact ps 0 := rfl
      rw [h0]
      ring

/-- Lengths: a scenario always has six marginals. -/
theorem margList_length (r : StatRequest) (br : Branch) : (margList r br).length = 6 := by
  simp [margList]

/-- Each scenario's seven rows sum to one. -/
theorem branchRow_sum (r : StatRequest) (br : Branch) :
    ∑ k ∈ Finset.range 7, branchRow r br k = 1 := by
  have h := pbExact_sum (margList r br)
  rw [margList_length] at h
  simpa [branchRow] using h

/-- The scenario weights of the resolver always sum to one. -/
theorem branches_weight_sum (r : StatRequest) :
    ((branches r).map Branch.weight).sum = 1 := by
  rcases h1 : r.a.item.powerAxis with _ | i <;>
    rcases h2 : r.b.item.powerAxis with _ | j <;>
      norm_num [branches, h1, h2]

/-- Exchanging a finite sum of probabilities with the weighted sum over
scenarios. -/
theorem weighted_rows_sum (r : StatRequest) (l : List Branch) (s : Finset ℕ) :
    ∑ k ∈ s, (l.map (fun br => br.weight * branchRow r br k)).sum
      = (l.map (fun br => br.weight * ∑ k ∈ s, branchRow r br k)).sum := by
  induction l with
  | nil => simp
  | cons x xs ih => simp [Finset.sum_add_distrib, ih, Finset.mul_sum]

/-- C1: for every breeding request, the seven results-row probabilities
(perfectCount 0 through 6) sum to exactly 1, hence in particular to 1.0
within the floating-point tolerance 1e-9 the spec allows; the sum-to-one
property comes from folding the six per-axis Bernoulli marginals through
the Poisson-binomial convolution, which preserves total mass, and from the
resolver weights summing to one. -/
theorem resultRows_sum_one (r : StatRequest) :
    ∑ k ∈ Finset.range 7, resultRow r k = 1 := by
  unfold resultRow
  rw [weighted_rows_sum]
  have hmap : ((branches r).map (fun br => br.weight * ∑ k ∈ Finset.range 7, branchRow r br k))
      = (branches r).map Branch.weight := by
    refine List.map_congr_left (fun br _ => ?_)
    rw [branchRow_sum, mul_one]
  rw [hmap, branches_weight_sum]

/-! Tail (at-least-k) probabilities of the Poisson-binomial fold, used to
settle the claim comparing target-match probabilities with the general
distribution. -/

theorem pbAtLeast_zero (ps : List ℚ) : pbAtLeast ps 0 = 1 := by
  induction ps with
  | nil => rfl
  | cons p ps ih => simp [pbAtLeast, ih]

theorem pbAtLeast_eq_zero (ps : List ℚ) (k : ℕ) (h : ps.length < k) :
    pbAtLeast ps k = 0 := by
  induction ps generalizing k with
  | nil =>
      match k, h with
      | n + 1, _ => rfl
  | cons p ps ih =>
      match k, h with
      | n + 1, h =>
        have h1 : ps.length < n := Nat.lt_of_succ_lt_succ (by simpa using h)
        have h2 : ps.length < n + 1 := Nat.lt_succ_of_lt h1
        simp [pbAtLeast, ih _ h1, ih _ h2]

theorem pbAtLeast_nonneg (ps : List ℚ) (k : ℕ)
    (h : ∀ p ∈ ps, 0 ≤ p ∧ p ≤ 1) : 0 ≤ pbAtLeast ps k := by
  induction ps generalizing k with
  | nil => cases k <;> simp [pbAtLeast]
  | cons p ps ih =>
      have hp := h p (List.mem_cons_self p ps)
      have h1 := ih k (fun q hq => h q (List.mem_cons_of_mem p hq))
      have h2 := ih (k - 1) (fun q hq => h q (List.mem_cons_of_mem p hq))
      have hnn : 0 ≤ (1 - p) * pbAtLeast ps k :=
        mul_nonneg (by linarith [hp.2]) h1
      have hnn2 : 0 ≤ p * pbAtLeast ps (k - 1) := mul_nonneg hp.1 h2
      calc (0 : ℚ) ≤ (1 - p) * pbAtLeast ps k + p * pbAtLeast ps (k - 1) := by linarith
        _ = pbAtLeast (p :: ps) k := by rw [pbAtLeast]

/-- Tail probabilities are antitone in the threshold. -/
theorem pbAtLeast_succ_le (ps : List ℚ) (k : ℕ)
    (h : ∀ p ∈ ps, 0 ≤ p ∧ p ≤ 1) : pbAtLeast ps (k + 1) ≤ pbAtLeast ps k := by
  induction ps generalizing k with
  | nil =>
      cases k <;> simp [pbAtLeast]
  | cons p ps ih =>
      have hp := h p (List.mem_cons_self p ps)
      have htail : ∀ q ∈ ps, 0 ≤ q ∧ q ≤ 1 := fun q hq => h q (List.mem_cons_of_mem p hq)
      have h1 : pbAtLeast ps (k + 1) ≤ pbAtLeast ps k := ih k htail
      have h2 : pbAtLeast ps (k + 1 - 1) ≤ pbAtLeast ps (k - 1) := by
        cases k with
        | zero => simp
        | succ m =>
            simpa using ih m htail
      rw [pbAtLeast, pbAtLeast]
      have hb1 : (1 - p) * pbAtLeast ps (k + 1) ≤ (1 - p) * pbAtLeast ps k :=
        mul_le_mul_of_nonneg_left h1 (by linarith [hp.2])
      have hb2 : p * pbAtLeast ps (k + 1 - 1) ≤ p * pbAtLeast ps (k - 1) :=
        mul_le_mul_of_nonneg_left h2 hp.1
      linarith

theorem pbAtLeast_pred_ge (ps : List ℚ) (k : ℕ)
    (h : ∀ p ∈ ps, 0 ≤ p ∧ p ≤ 1) : pbAtLeast ps k ≤ pbAtLeast ps (k - 1) := by
  cases k with
  | zero => simp
  | succ m => simpa using pbAtLeast_succ_le ps m h

/-- The exact row is the difference of consecutive tails. -/
theorem pbExact_eq_tail_sub (ps : List ℚ) (k : ℕ) :
    pbExact ps k = pbAtLeast ps k - pbAtLeast ps (k + 1) := by
  induction ps generalizing k with
  | nil => cases k <;> simp [pbExact, pbAtLeast]
  | cons p ps ih =>
      cases k with
      | zero =>
          have h0 := pbAtLeast_zero ps
          simp [pbExact, pbAtLeast, ih 0, h0]
          ring
      | succ m =>
          simp [pbExact, pbAtLeast, ih m, ih (m + 1)]
          ring

/-- The tail equals the sum of the exact rows from k up to the number of
trials. -/
theorem pbAtLeast_eq_sum (ps : List ℚ) (k : ℕ) :
    pbAtLeast ps k = ∑ j ∈ Finset.Icc k ps.length, pbExact ps j := by
  rcases le_or_lt k ps.length with hk | hk
  · have hsum : ∑ j ∈ Finset.Icc k ps.length, pbExact ps j
        = ∑ i ∈ Finset.range (ps.length + 1 - k), pbExact ps (k + i) := by
      rw [← Nat.Ico_succ_right, Finset.sum_Ico_eq_sum_range]
    rw [hsum]
    have htel : ∑ i ∈ Finset.range (ps.length + 1 - k),
        (pbAtLeast ps (k + i) - pbAtLeast ps (k + i + 1))
        = pbAtLeast ps k - pbAtLeast ps (k + (ps.length + 1 - k)) := by
      simpa using Finset.sum_range_sub' (fun i => pbAtLeast ps (k + i)) (ps.length + 1 - k)
    have hcongr : ∑ i ∈ Finset.range (ps.length + 1 - k), pbExact ps (k + i)
        = ∑ i ∈ Finset.range (ps.length + 1 - k),
            (pbAtLeast ps (k + i) - pbAtLeast ps (k + i + 1)) :=
      Finset.sum_congr rfl (fun i _ => pbExact_eq_tail_sub ps (k + i))
    have hend : k + (ps.length + 1 - k) = ps.length + 1 := by omega
    rw [hcongr, htel, hend, pbAtLeast_eq_zero ps _ (Nat.lt_succ_self _), sub_zero]
  · rw [Finset.Icc_eq_empty (by omega), Finset.sum_empty, pbAtLeast_eq_zero ps _ hk]

/-! Bounds on the per-axis marginals. -/

theorem inheritedCount_cases (r : StatRequest) :
    inheritedCount r = 3 ∨ inheritedCount r = 5 := by
  unfold inheritedCount
  split
  · exact Or.inr rfl
  · exact Or.inl rfl

theorem ivq_bounds (b : Bool) : 0 ≤ ivq b ∧ ivq b ≤ 1 := by
  cases b <;> norm_num [ivq]

theorem randShare_bounds (hf : Bool) (r : StatRequest) :
    0 ≤ randShare hf (inheritedCount r) ∧ randShare hf (inheritedCount r) ≤ 1 := by
  rcases inheritedCount_cases r with h | h <;> rw [h] <;> cases hf <;>
    norm_num [randShare]

theorem randMarg_bounds (r : StatRequest) (s : ℚ) (i : StatAxis)
    (h0 : 0 ≤ s) (h1 : s ≤ 1) : 0 ≤ randMarg r s i ∧ randMarg r s i ≤ 1 := by
  have ha := ivq_bounds (r.a.ivs i)
  have hb := ivq_bounds (r.b.ivs i)
  have hmean0 : 0 ≤ (ivq (r.a.ivs i) + ivq (r.b.ivs i)) / 2 := by linarith [ha.1, hb.1]
  have hmean1 : (ivq (r.a.ivs i) + ivq (r.b.ivs i)) / 2 ≤ 1 := by linarith [ha.2, hb.2]
  have hub : s * ((ivq (r.a.ivs i) + ivq (r.b.ivs i)) / 2) ≤ s * 1 :=
    mul_le_mul_of_nonneg_left hmean1 h0
  have hlb : 0 ≤ s * ((ivq (r.a.ivs i) + ivq (r.b.ivs i)) / 2) :=
    mul_nonneg h0 hmean0
  unfold randMarg
  constructor
  · have : (0 : ℚ) ≤ (1 - s) * (1 / 32) := by
      apply mul_nonneg <;> linarith
    linarith
  · have : (1 - s) * (1 / 32) ≤ (1 - s) := by nlinarith
    linarith

theorem marginal_bounds (r : StatRequest) (br : Branch) (i : StatAxis) :
    0 ≤ marginal r br i ∧ marginal r br i ≤ 1 := by
  rcases br with ⟨w, forced⟩
  rcases forced with _ | ⟨j, p⟩
  · have hs := randShare_bounds false r
    simpa [marginal] using randMarg_bounds r _ i hs.1 hs.2
  · by_cases hij : i = j
    · simpa [marginal, hij] using ivq_bounds (parentIvs r p i)
    · have hs := randShare_bounds true r
      simpa [marginal, hij] using randMarg_bounds r _ i hs.1 hs.2

/-! Selected products: the probability that a fixed subset of the trials
all succeed, compared to the tail of the count distribution. -/

/-- Key inequality: the joint success probability of a selected subset of
independent trials is at most the probability of at least that many
successes overall. -/
theorem selProd_le_pbAtLeast (l : List (ℚ × Bool))
    (h : ∀ pc ∈ l, 0 ≤ pc.1 ∧ pc.1 ≤ 1) :
    selProd l ≤ pbAtLeast (l.map Prod.fst) (selCount l) := by
  induction l with
  | nil => simp [selProd, selCount, pbAtLeast]
  | cons pc rest ih =>
      obtain ⟨p, c⟩ := pc
      have hp := h (p, c) (List.mem_cons_self _ _)
      have htail : ∀ q ∈ rest, 0 ≤ q.1 ∧ q.1 ≤ 1 :=
        fun q hq => h q (List.mem_cons_of_mem _ hq)
      have ihr := ih htail
      have hbtail : ∀ q ∈ rest.map Prod.fst, 0 ≤ q ∧ q ≤ 1 := by
        intro q hq
        obtain ⟨pc, hpc, rfl⟩ := List.mem_map.mp hq
        exact htail pc hpc
      cases c with
      | true =>
          have hG : 0 ≤ pbAtLeast (rest.map Prod.fst) (1 + selCount rest) :=
            pbAtLeast_nonneg _ _ hbtail
          have h2 : p * selProd rest ≤ p * pbAtLeast (rest.map Prod.fst) (selCount rest) :=
            mul_le_mul_of_nonneg_left ihr hp.1
          have hc : 1 + selCount rest - 1 = selCount rest := by omega
          have hstep : 0 ≤ (1 - p) * pbAtLeast (rest.map Prod.fst) (1 + selCount rest) :=
            mul_nonneg (by linarith [hp.2]) hG
          simp [selProd, selCount, List.map_cons, pbAtLeast, hc]
          linarith
      | false =>
          have hpred : pbAtLeast (rest.map Prod.fst) (selCount rest)
              ≤ pbAtLeast (rest.map Prod.fst) (selCount rest - 1) :=
            pbAtLeast_pred_ge _ _ hbtail
          have hmul : p * pbAtLeast (rest.map Prod.fst) (selCount rest)
              ≤ p * pbAtLeast (rest.map Prod.fst) (selCount rest - 1) :=
            mul_le_mul_of_nonneg_left hpred hp.1
          simp [selProd, selCount, List.map_cons, pbAtLeast]
          linarith

theorem filter_prod_eq_selProd (axes : List StatAxis) (m : StatAxis → ℚ)
    (t : StatAxis → Bool) :
    ((axes.filter (fun i => t i)).map m).prod
      = selProd (axes.map (fun i => (m i, t i))) := by
  induction axes with
  | nil => rfl
  | cons a rest ih => by_cases h : t a <;> simp [List.filter_cons, h, selProd, ih]

theorem filter_length_eq_selCount (axes : List StatAxis) (m : StatAxis → ℚ)
    (t : StatAxis → Bool) :
    (axes.filter (fun i => t i)).length
      = selCount (axes.map (fun i => (m i, t i))) := by
  induction axes with
  | nil => rfl
  | cons a rest ih =>
      by_cases h : t a
      · simp [List.filter_cons, h, selCount, ih]
        omega
      · simp [List.filter_cons, h, selCount, ih]

/-- Per scenario, the target-match product never exceeds the cumulative
probability of at least targetCount perfect axes. -/
theorem branchTarget_le_tail (r : StatRequest) (br : Branch) (t : StatAxis → Bool) :
    branchTarget r br t ≤ ∑ j ∈ Finset.Icc (targetCount t) 6, branchRow r br j := by
  have hbounds : ∀ pc ∈ (List.finRange 6).map (fun i => (marginal r br i, t i)),
      0 ≤ pc.1 ∧ pc.1 ≤ 1 := by
    intro pc hpc
    obtain ⟨i, hi, rfl⟩ := List.mem_map.mp hpc
    exact marginal_bounds r br i
  have hsel := selProd_le_pbAtLeast _ hbounds
  have hmapfst : ((List.finRange 6).map (fun i => (marginal r br i, t i))).map Prod.fst
      = margList r br := by
    simp [margList, List.map_map]
  have hcount : selCount ((List.finRange 6).map (fun i => (marginal r br i, t i)))
      = targetCount t :=
    (filter_length_eq_selCount (List.finRange 6) (marginal r br) t).symm
  rw [hmapfst, hcount, ← filter_prod_eq_selProd] at hsel
  have htailsum : pbAtLeast (margList r br) (targetCount t)
      = ∑ j ∈ Finset.Icc (targetCount t) 6, branchRow r br j := by
    rw [pbAtLeast_eq_sum, margList_length]
    simp [branchRow]
  rw [← htailsum]
  exact hsel

/-- Scenario weights are nonnegative. -/
theorem branches_weight_nonneg (r : StatRequest) :
    ∀ br ∈ branches r, 0 ≤ br.weight := by
  intro br hbr
  rcases h1 : r.a.item.powerAxis with _ | i <;>
    rcases h2 : r.b.item.powerAxis with _ | j <;>
      rw [branches, h1, h2] at hbr <;> simp at hbr
  · rw [hbr]; norm_num
  · rw [hbr]; norm_num
  · rw [hbr]; norm_num
  · rcases hbr with hbr | hbr <;> rw [hbr] <;> norm_num

/-- C7 (amended): for every request and target StatVector, the target-match
exact probability (scenario-weighted product of the marginals of the
targeted axes) is at most the cumulative general-distribution probability
of perfectCount at least popcount(target), that is, the sum of the rows
from popcount(target) through 6.  The original claim compared against the
single row at popcount(target) and is refuted below. -/
theorem targetMatch_le_cumulative (r : StatRequest) (t : StatAxis → Bool) :
    targetMatch r t ≤ ∑ j ∈ Finset.Icc (targetCount t) 6, resultRow r j := by
  have hrw : ∑ j ∈ Finset.Icc (targetCount t) 6, resultRow r j
      = ((branches r).map
          (fun br => br.weight * ∑ j ∈ Finset.Icc (targetCount t) 6, branchRow r br j)).sum := by
    unfold resultRow
    exact weighted_rows_sum r (branches r) _
  rw [hrw]
  unfold targetMatch
  refine List.sum_le_sum (fun br hbr => ?_)
  exact mul_le_mul_of_nonneg_left (branchTarget_le_tail r br t)
    (branches_weight_nonneg r br hbr)

/-- C7 is refuted as stated: with both parents perfect on all six axes,
parent A holding destiny_knot (inherited count 5, no forcer), and the
target set consisting of the first five axes (popcount 5), every axis has
marginal 161/192, the target-match probability is (161/192)^5 =
108175616801/260919263232 = 0.41459, while the general row for
perfectCount = 5 is 6 * (161/192)^5 * (31/192) = 3353444120831/8349416423424
= 0.40164: the target-match probability strictly exceeds the row. -/
theorem targetMatch_gt_generalRow :
    targetCount targetFive = 5 ∧
    resultRow reqKnotPerfect 5 < targetMatch reqKnotPerfect targetFive := by
  have hfin : List.finRange 6 = [0, 1, 2, 3, 4, 5] := by decide
  have hmargv : ∀ i : StatAxis,
      marginal reqKnotPerfect ⟨1, Option.none⟩ i = 161 / 192 := by
    intro i
    norm_num [marginal, randMarg, randShare, inheritedCount, ivq, reqKnotPerfect]
  have hbr : branches reqKnotPerfect = [⟨1, Option.none⟩] := rfl
  have hm : margList reqKnotPerfect ⟨1, Option.none⟩
      = [161 / 192, 161 / 192, 161 / 192, 161 / 192, 161 / 192, 161 / 192] := by
    rw [margList, hfin]
    simp [hmargv]
  have hrow : resultRow reqKnotPerfect 5 = 3353444120831 / 8349416423424 := by
    rw [resultRow, hbr]
    simp only [List.map_cons, List.map_nil, List.sum_cons, List.sum_nil, add_zero]
    rw [branchRow, hm]
    norm_num [pbExact]
  have hfil : List.filter (fun i => targetFive i) [(0 : StatAxis), 1, 2, 3, 4, 5]
      = [0, 1, 2, 3, 4] := by decide
  have htm : targetMatch reqKnotPerfect targetFive = 108175616801 / 260919263232 := by
    rw [targetMatch, hbr]
    simp only [List.map_cons, List.map_nil, List.sum_cons, List.sum_nil, add_zero]
    rw [branchTarget, hfin, hfil]
    simp [hmargv]
    norm_num
  refine ⟨by decide, ?_⟩
  rw [hrow, htm]
  norm_num

/-- Marginals depend only on the parents' IV flags, the inherited count,
and the forced slot of the scenario. -/
theorem marginal_congr (r r' : StatRequest) (br br' : Branch)
    (h1 : r.a.ivs = r'.a.ivs) (h2 : r.b.ivs = r'.b.ivs)
    (h3 : inheritedCount r = inheritedCount r')
    (hf : br.forced = br'.forced) :
    marginal r br = marginal r' br' := by
  funext i
  rcases br with ⟨w, f⟩
  rcases br' with ⟨w', f'⟩
  change f = f' at hf
  subst hf
  rcases f with _ | ⟨j, p⟩
  · simp [marginal, randMarg, h1, h2, h3]
  · cases p <;> simp [marginal, randMarg, parentIvs, h1, h2, h3]

/-- C2: the Stat-Slot Resolver rules.  The inherited count is 3 with no
pairing-lock and 5 when either or both parents hold it (not additive).
When exactly one parent holds a per-stat-forcer, the resolver returns the
single scenario forcing that axis to the holder: the forced axis's
marginal is the holder's flag (it is inherited from the holder), and every
other axis is inherited with probability (inheritedCount - 1)/5, the
remaining slots drawn from the other five axes. -/
theorem statSlotResolver_rules :
    (∀ r : StatRequest, r.a.item ≠ HeldItem.destinyKnot →
        r.b.item ≠ HeldItem.destinyKnot → inheritedCount r = 3)
    ∧ (∀ r : StatRequest,
        r.a.item = HeldItem.destinyKnot ∨ r.b.item = HeldItem.destinyKnot →
        inheritedCount r = 5)
    ∧ (∀ (a b : StatParent) (i : StatAxis), a.item = HeldItem.power i →
        b.item.powerAxis = Option.none →
        branches ⟨a, b⟩ = [⟨1, Option.some (i, ParentTag.A)⟩]
        ∧ marginal ⟨a, b⟩ ⟨1, Option.some (i, ParentTag.A)⟩ i = ivq (a.ivs i)
        ∧ ∀ j : StatAxis, j ≠ i →
            marginal ⟨a, b⟩ ⟨1, Option.some (i, ParentTag.A)⟩ j
              = randMarg ⟨a, b⟩ (((inheritedCount ⟨a, b⟩ : ℚ) - 1) / 5) j)
    ∧ (∀ (a b : StatParent) (j : StatAxis), b.item = HeldItem.power j →
        a.item.powerAxis = Option.none →
        branches ⟨a, b⟩ = [⟨1, Option.some (j, ParentTag.B)⟩]
        ∧ marginal ⟨a, b⟩ ⟨1, Option.some (j, ParentTag.B)⟩ j = ivq (b.ivs j)) := by
  refine ⟨?_, ?_, ?_, ?_⟩
  · intro r ha hb
    unfold inheritedCount
    rw [if_neg]
    tauto
  · intro r h
    unfold inheritedCount
    rw [if_pos h]
  · intro a b i ha hb
    have hpa : (⟨a, b⟩ : StatRequest).a.item.powerAxis = Option.some i := by
      show a.item.powerAxis = Option.some i
      rw [ha]
      rfl
    refine ⟨?_, ?_, ?_⟩
    · rw [branches, hpa, hb]
    · simp [marginal, parentIvs]
    · intro j hji
      simp [marginal, hji, Ne.symm hji, randShare]
  · intro a b j hb ha
    have hpb : (⟨a, b⟩ : StatRequest).b.item.powerAxis = Option.some j := by
      show b.item.powerAxis = Option.some j
      rw [hb]
      rfl
    refine ⟨?_, ?_⟩
    · rw [branches, ha, hpb]
    · simp [marginal, parentIvs]

/-- Witness for C2 at concrete inputs: two plain parents inherit 3 slots;
a destiny_knot holder raises it to 5; a lone HP forcer yields the single
scenario forcing HP to parent A, whose other axes use the
(inheritedCount - 1)/5 share. -/
theorem statSlotResolver_rules_witness :
    inheritedCount ⟨parentPlain, parentPlain⟩ = 3
    ∧ inheritedCount ⟨parentKnot, parentPlain⟩ = 5
    ∧ branches ⟨parentForceHP, parentPlain⟩ = [⟨1, Option.some (0, ParentTag.A)⟩]
    ∧ marginal ⟨parentForceHP, parentPlain⟩ ⟨1, Option.some (0, ParentTag.A)⟩ 1
        = randMarg ⟨parentForceHP, parentPlain⟩
            (((inheritedCount ⟨parentForceHP, parentPlain⟩ : ℚ) - 1) / 5) 1 :=
  ⟨statSlotResolver_rules.1 ⟨parentPlain, parentPlain⟩ (by decide) (by decide),
   statSlotResolver_rules.2.1 ⟨parentKnot, parentPlain⟩ (Or.inl rfl),
   (statSlotResolver_rules.2.2.1 parentForceHP parentPlain 0 rfl rfl).1,
   (statSlotResolver_rules.2.2.1 parentForceHP parentPlain 0 rfl rfl).2.2 1 (by decide)⟩

/-- C3: when both parents hold per-stat-forcers (possibly on different
axes), the resolver returns the two equally weighted scenarios, one per
parent's forcer, and every results row of the request equals the
equal-weight (50/50) average of the corresponding rows of the two
single-forcer requests. -/
theorem bothForcers_split_average (aIvs bIvs : StatAxis → Bool)
    (i j : StatAxis) (k : ℕ) :
    branches ⟨⟨aIvs, HeldItem.power i⟩, ⟨bIvs, HeldItem.power j⟩⟩
      = [⟨1 / 2, Option.some (i, ParentTag.A)⟩, ⟨1 / 2, Option.some (j, ParentTag.B)⟩]
    ∧ resultRow ⟨⟨aIvs, HeldItem.power i⟩, ⟨bIvs, HeldItem.power j⟩⟩ k
        = (1 / 2) * resultRow ⟨⟨aIvs, HeldItem.power i⟩, ⟨bIvs, HeldItem.none⟩⟩ k
          + (1 / 2) * resultRow ⟨⟨aIvs, HeldItem.none⟩, ⟨bIvs, HeldItem.power j⟩⟩ k := by
  constructor
  · rfl
  · have e1 : margList ⟨⟨aIvs, HeldItem.power i⟩, ⟨bIvs, HeldItem.power j⟩⟩
        ⟨1 / 2, Option.some (i, ParentTag.A)⟩
        = margList ⟨⟨aIvs, HeldItem.power i⟩, ⟨bIvs, HeldItem.none⟩⟩
            ⟨1, Option.some (i, ParentTag.A)⟩ := by
      unfold margList
      rw [marginal_congr
        ⟨⟨aIvs, HeldItem.power i⟩, ⟨bIvs, HeldItem.power j⟩⟩
        ⟨⟨aIvs, HeldItem.power i⟩, ⟨bIvs, HeldItem.none⟩⟩
        ⟨1 / 2, Option.some (i, ParentTag.A)⟩
        ⟨1, Option.some (i, ParentTag.A)⟩
        rfl rfl rfl rfl]
    have e2 : margList ⟨⟨aIvs, HeldItem.power i⟩, ⟨bIvs, HeldItem.power j⟩⟩
        ⟨1 / 2, Option.some (j, ParentTag.B)⟩
        = margList ⟨⟨aIvs, HeldItem.none⟩, ⟨bIvs, HeldItem.power j⟩⟩
            ⟨1, Option.some (j, ParentTag.B)⟩ := by
      unfold margList
      rw [marginal_congr
        ⟨⟨aIvs, HeldItem.power i⟩, ⟨bIvs, HeldItem.power j⟩⟩
        ⟨⟨aIvs, HeldItem.none⟩, ⟨bIvs, HeldItem.power j⟩⟩
        ⟨1 / 2, Option.some (j, ParentTag.B)⟩
        ⟨1, Option.some (j, ParentTag.B)⟩
        rfl rfl rfl rfl]
    rw [resultRow, resultRow, resultRow,
        show branches ⟨⟨aIvs, HeldItem.power i⟩, ⟨bIvs, HeldItem.power j⟩⟩
          = [⟨1 / 2, Option.some (i, ParentTag.A)⟩, ⟨1 / 2, Option.some (j, ParentTag.B)⟩]
          from rfl,
        show branches ⟨⟨aIvs, HeldItem.power i⟩, ⟨bIvs, HeldItem.none⟩⟩
          = [⟨1, Option.some (i, ParentTag.A)⟩] from rfl,
        show branches ⟨⟨aIvs, HeldItem.none⟩, ⟨bIvs, HeldItem.power j⟩⟩
          = [⟨1, Option.some (j, ParentTag.B)⟩] from rfl]
    simp only [List.map_cons, List.map_nil, List.sum_cons, List.sum_nil, add_zero]
    rw [branchRow, branchRow, branchRow, branchRow, e1, e2]
    ring

/-- C4: the Trait-Inheritance Engine has exactly the three cases given by
how many parents hold the trait-lock (everstone): with no lock every
nature of the 25-entry catalog has probability 1/25; with exactly one
lock the locking parent's nature has probability 1 and every other nature
probability 0; with both locked and distinct natures, parent A's and
parent B's natures have probability 1/2 each and no other nature is
possible. -/
theorem traitInheritance_cases :
    (∀ (a b : NatureParent) (x : Nature), hasTraitLock a = false →
        hasTraitLock b = false → natureProb a b x = 1 / 25)
    ∧ (∀ a b : NatureParent, hasTraitLock a = true → hasTraitLock b = false →
        natureProb a b a.nature = 1
        ∧ ∀ x : Nature, x ≠ a.nature → natureProb a b x = 0)
    ∧ (∀ a b : NatureParent, hasTraitLock a = false → hasTraitLock b = true →
        natureProb a b b.nature = 1
        ∧ ∀ x : Nature, x ≠ b.nature → natureProb a b x = 0)
    ∧ (∀ a b : NatureParent, hasTraitLock a = true → hasTraitLock b = true →
        a.nature ≠ b.nature →
        natureProb a b a.nature = 1 / 2
        ∧ natureProb a b b.nature = 1 / 2
        ∧ ∀ x : Nature, x ≠ a.nature → x ≠ b.nature → natureProb a b x = 0) := by
  refine ⟨?_, ?_, ?_, ?_⟩
  · intro a b x ha hb
    simp [natureProb, ha, hb]
  · intro a b ha hb
    refine ⟨by simp [natureProb, ha, hb], fun x hx => by simp [natureProb, ha, hb, hx]⟩
  · intro a b ha hb
    refine ⟨by simp [natureProb, ha, hb], fun x hx => by simp [natureProb, ha, hb, hx]⟩
  · intro a b ha hb hab
    refine ⟨by simp [natureProb, ha, hb, hab], by simp [natureProb, ha, hb, Ne.symm hab],
      fun x hxa hxb => by simp [natureProb, ha, hb, hxa, hxb]⟩

/-- Witness for C4 at concrete inputs: no lock gives 1/25 to nature 3; a
lone everstone on parent A passes nature 0 with certainty; everstone on
both (natures 0 and 1) gives 1/2 each. -/
theorem traitInheritance_cases_witness :
    natureProb naturePlainB naturePlainB 3 = 1 / 25
    ∧ natureProb natureLockA naturePlainB natureLockA.nature = 1
    ∧ natureProb natureLockA natureLockB natureLockA.nature = 1 / 2
    ∧ natureProb natureLockA natureLockB natureLockB.nature = 1 / 2 :=
  ⟨traitInheritance_cases.1 naturePlainB naturePlainB 3 rfl rfl,
   (traitInheritance_cases.2.1 natureLockA naturePlainB rfl rfl).1,
   (traitInheritance_cases.2.2.2 natureLockA natureLockB rfl rfl (by decide)).1,
   (traitInheritance_cases.2.2.2 natureLockA natureLockB rfl rfl (by decide)).2.1⟩

/-- The donor is always one of the two parents. -/
theorem donor_mem (a b : AbilityParent) : donor a b = a ∨ donor a b = b := by
  unfold donor
  split_ifs <;> simp

/-- C5: the Special-Trait Engine's donor rule and distribution.  The donor
is the non-universal-donor parent when a universal donor is involved, and
the female-designated parent otherwise (so the male-designated parent's
trait never transmits).  A donor with the hidden variant passes it with
probability 3/5; the remaining 2/5 is split 4/5 to the primary and 1/5 to
the secondary regular slot when both exist, or goes entirely to the single
slot.  A donor without the hidden variant gives 0 hidden, and 4/5 primary,
1/5 secondary with two slots (probability 1 to the single slot, 0
secondary, otherwise).  The three probabilities always sum to exactly 1. -/
theorem specialTrait_rules :
    (∀ a b : AbilityParent, a.isUniversalDonor = true →
        b.isUniversalDonor = false → donor a b = b)
    ∧ (∀ a b : AbilityParent, a.isUniversalDonor = false →
        b.isUniversalDonor = true → donor a b = a)
    ∧ (∀ a b : AbilityParent, a.isUniversalDonor = false →
        b.isUniversalDonor = false → a.femaleDesignated = true → donor a b = a)
    ∧ (∀ a b : AbilityParent, a.isUniversalDonor = false →
        b.isUniversalDonor = false → a.femaleDesignated = false → donor a b = b)
    ∧ (∀ d : AbilityParent, hasHiddenVariant d = true →
        hiddenProb d = 3 / 5
        ∧ (2 ≤ d.regular.length →
            primaryProb d = 2 / 5 * (4 / 5) ∧ secondaryProb d = 2 / 5 * (1 / 5))
        ∧ (d.regular.length < 2 → primaryProb d = 2 / 5 ∧ secondaryProb d = 0))
    ∧ (∀ d : AbilityParent, hasHiddenVariant d = false →
        hiddenProb d = 0
        ∧ (2 ≤ d.regular.length → primaryProb d = 4 / 5 ∧ secondaryProb d = 1 / 5)
        ∧ (d.regular.length < 2 → primaryProb d = 1 ∧ secondaryProb d = 0))
    ∧ (∀ d : AbilityParent, hiddenProb d + primaryProb d + secondaryProb d = 1) := by
  refine ⟨?_, ?_, ?_, ?_, ?_, ?_, ?_⟩
  · intro a b ha hb
    simp [donor, ha, hb]
  · intro a b ha hb
    simp [donor, ha, hb]
  · intro a b ha hb hf
    simp [donor, ha, hb, hf]
  · intro a b ha hb hf
    simp [donor, ha, hb, hf]
  · intro d hd
    refine ⟨by simp [hiddenProb, hd], fun h2 => ?_, fun h2 => ?_⟩
    · exact ⟨by norm_num [primaryProb, hiddenProb, hd, h2],
        by norm_num [secondaryProb, hiddenProb, hd, h2]⟩
    · have hn : ¬ 2 ≤ d.regular.length := by omega
      exact ⟨by norm_num [primaryProb, hiddenProb, hd, hn],
        by norm_num [secondaryProb, hiddenProb, hd, hn]⟩
  · intro d hd
    refine ⟨by simp [hiddenProb, hd], fun h2 => ?_, fun h2 => ?_⟩
    · constructor <;> simp [primaryProb, secondaryProb, hiddenProb, hd, h2]
    · have hn : ¬ 2 ≤ d.regular.length := by omega
      constructor <;> simp [primaryProb, secondaryProb, hiddenProb, hd, hn]
  · intro d
    by_cases hd : hasHiddenVariant d <;> by_cases h2 : 2 ≤ d.regular.length <;>
      simp [hiddenProb, primaryProb, secondaryProb, hd, h2] <;> norm_num

/-- Witness for C5 at concrete inputs: with Ditto as parent A the donor is
the other parent; without Ditto the female-designated parent donates; the
hidden-variant donor with two regular slots gets the 3/5, 8/25, 2/25
distribution, and the no-hidden single-slot donor gets 0, 1, 0; both sum
to 1. -/
theorem specialTrait_rules_witness :
    donor dittoDonor femaleHA = femaleHA
    ∧ donor femaleHA maleNoHA = femaleHA
    ∧ hiddenProb femaleHA = 3 / 5
    ∧ primaryProb femaleHA = 2 / 5 * (4 / 5)
    ∧ secondaryProb femaleHA = 2 / 5 * (1 / 5)
    ∧ primaryProb maleNoHA = 1
    ∧ secondaryProb maleNoHA = 0
    ∧ hiddenProb femaleHA + primaryProb femaleHA + secondaryProb femaleHA = 1 :=
  ⟨specialTrait_rules.1 dittoDonor femaleHA rfl rfl,
   specialTrait_rules.2.2.1 femaleHA maleNoHA rfl rfl rfl,
   (specialTrait_rules.2.2.2.2.1 femaleHA rfl).1,
   ((specialTrait_rules.2.2.2.2.1 femaleHA rfl).2.1 (by decide)).1,
   ((specialTrait_rules.2.2.2.2.1 femaleHA rfl).2.1 (by decide)).2,
   ((specialTrait_rules.2.2.2.2.2.1 maleNoHA rfl).2.2 (by decide)).1,
   ((specialTrait_rules.2.2.2.2.2.1 maleNoHA rfl).2.2 (by decide)).2,
   specialTrait_rules.2.2.2.2.2.2 femaleHA⟩

/-- A parent that carries no form of a trait contributes zero probability
for it in every slot. -/
theorem targetProb_eq_zero (p : AbilityParent) (t : String)
    (h : carries p t = false) : targetProb p t = 0 := by
  have hmem : ¬ (t ∈ p.regular ∨ p.hidden = Option.some t) := by
    simpa [carries] using h
  push_neg at hmem
  have h0 : ¬ p.regular[0]? = Option.some t :=
    fun hc => hmem.1 (List.getElem?_mem hc)
  have h1 : ¬ p.regular[1]? = Option.some t :=
    fun hc => hmem.1 (List.getElem?_mem hc)
  simp [targetProb, hmem.2, h0, h1]

/-- C6: a query for a special trait neither parent carries is answered
with the valid ImpossibleOutcome result: probability 0, the
impossibleOutcome marker set, inside Except.ok, not an error; whereas an
InvalidConfiguration input (malformed StatVector length) yields
Except.error and therefore no result at all, partial or otherwise. -/
theorem impossibleOutcome_not_error :
    (∀ r : SpecialTraitRequest,
        r.parent_a_ivs.length = 6 → r.parent_b_ivs.length = 6 →
        carries r.parentA r.target = false → carries r.parentB r.target = false →
        specialTraitEngine r = Except.ok ⟨0, true⟩)
    ∧ (∀ r : SpecialTraitRequest,
        r.parent_a_ivs.length ≠ 6 ∨ r.parent_b_ivs.length ≠ 6 →
        ∃ e, specialTraitEngine r = Except.error e) := by
  constructor
  · intro r h1 h2 hcA hcB
    have hp : targetProb (donor r.parentA r.parentB) r.target = 0 := by
      rcases donor_mem r.parentA r.parentB with hd | hd <;> rw [hd]
      · exact targetProb_eq_zero _ _ hcA
      · exact targetProb_eq_zero _ _ hcB
    simp [specialTraitEngine, h1, h2, hcA, hcB, hp]
  · intro r h
    by_cases ha : r.parent_a_ivs.length = 6
    · rcases h with h | h
      · exact absurd ha h
      · exact ⟨EngineError.invalidConfiguration "parent B StatVector length",
          by simp [specialTraitEngine, ha, h]⟩
    · exact ⟨EngineError.invalidConfiguration "parent A StatVector length",
        by simp [specialTraitEngine, ha]⟩

/-- Witness for C6 at concrete inputs: querying a trait neither parent
carries returns the ok zero-probability impossible result, and a
five-entry StatVector is rejected with an error. -/
theorem impossibleOutcome_not_error_witness :
    specialTraitEngine reqImpossible = Except.ok ⟨0, true⟩
    ∧ ∃ e, specialTraitEngine reqBadIvs = Except.error e :=
  ⟨impossibleOutcome_not_error.1 reqImpossible (by decide) (by decide)
      (by decide) (by decide),
   impossibleOutcome_not_error.2 reqBadIvs (Or.inl (by decide))⟩

/-- C8: for every results row, the egg estimate is ceil(1/probability)
when the probability is positive (characterized by the standard ceiling
inequalities n - 1 < 1/p ≤ n), and the "---" sentinel (here Option.none,
meaning effectively unreachable) when the probability is 0; in particular
at probability 1/32 = 0.03125 the estimate is exactly 32. -/
theorem eggsEstimate_spec :
    (∀ p : ℚ, 0 < p → eggsEstimate p = Option.some ⌈1 / p⌉
        ∧ ∀ n : ℤ, eggsEstimate p = Option.some n →
            (n : ℚ) - 1 < 1 / p ∧ 1 / p ≤ (n : ℚ))
    ∧ eggsEstimate 0 = Option.none
    ∧ eggsEstimate (1 / 32) = Option.some 32 := by
  refine ⟨?_, ?_, ?_⟩
  · intro p hp
    refine ⟨by simp [eggsEstimate, hp], ?_⟩
    intro n hn
    simp only [eggsEstimate, if_pos hp, Option.some.injEq] at hn
    subst hn
    constructor
    · have h := Int.ceil_lt_add_one (1 / p)
      linarith
    · exact_mod_cast Int.le_ceil (1 / p)
  · simp [eggsEstimate]
  · have h32 : (1 : ℚ) / (1 / 32) = 32 := by norm_num
    simp only [eggsEstimate, if_pos (by norm_num : (0 : ℚ) < 1 / 32), h32]
    norm_num

/-- Witness for C8 at a concrete input: probability 1/2 is positive and
its estimate is ceil(1/(1/2)) eggs. -/
theorem eggsEstimate_spec_witness :
    (0 : ℚ) < 1 / 2 ∧ eggsEstimate (1 / 2) = Option.some ⌈(1 : ℚ) / (1 / 2)⌉ :=
  ⟨by norm_num, (eggsEstimate_spec.1 (1 / 2) (by norm_num)).1⟩

/-- C9: whenever App.js assembles a payload (both parents selected), its
breeding_with_ditto flag is true precisely when at least one of the two
selected parents has pokemonId 132 (Ditto). -/
theorem breedingWithDitto_iff :
    ∀ (aId bId : Option ℕ) (pl : Payload),
      handleCalculate aId bId = Option.some pl →
      (pl.breeding_with_ditto = true
        ↔ aId = Option.some 132 ∨ bId = Option.some 132) := by
  intro aId bId pl h
  simp only [handleCalculate] at h
  split at h
  · have hpl := Option.some.inj h
    subst hpl
    simp [breedingWithDitto]
  · exact absurd h (by simp)

/-- Witness for C9 at concrete inputs: parents 132 and 1 produce a payload
whose flag is true because parent A is Ditto. -/
theorem breedingWithDitto_iff_witness :
    handleCalculate (Option.some 132) (Option.some 1)
      = Option.some ⟨132, 1, true⟩
    ∧ ((⟨132, 1, true⟩ : Payload).breeding_with_ditto = true
        ↔ Option.some 132 = Option.some (132 : ℕ)
          ∨ Option.some 1 = Option.some (132 : ℕ)) :=
  ⟨rfl, breedingWithDitto_iff (Option.some 132) (Option.some 1) ⟨132, 1, true⟩ rfl⟩

/-- C10: the read-only API helpers never throw: searchPokemon resolves to
ok [] for every query shorter than 2 characters, independently of the
network (no request is issued, modelled as the result not depending on the
fetch function), and searchPokemon, getCompatiblePartners, getNatures and
getEggGroups resolve to ok [] on a non-ok response; by contrast
getPokemonDetails and calculateBreeding reject with Except.error on a
non-ok response. -/
theorem apiHelpers_error_behaviour :
    (∀ (α : Type) (f : String → HttpResponse (List α)) (q : String),
        q.length < 2 → searchPokemon f q = Except.ok [])
    ∧ (∀ (α : Type) (f g : String → HttpResponse (List α)) (q : String),
        q.length < 2 → searchPokemon f q = searchPokemon g q)
    ∧ (∀ (α : Type) (f : String → HttpResponse (List α)) (q : String),
        (f ("/api/pokemon/search?q=" ++ q)).ok = false →
        searchPokemon f q = Except.ok [])
    ∧ (∀ (α : Type) (f : String → HttpResponse (List α)) (id : ℕ),
        (f ("/api/pokemon/" ++ toString id ++ "/compatible")).ok = false →
        getCompatiblePartners f id = Except.ok [])
    ∧ (∀ (α : Type) (f : String → HttpResponse (List α)),
        (f "/api/natures").ok = false → getNatures f = Except.ok [])
    ∧ (∀ (α : Type) (f : String → HttpResponse (List α)),
        (f "/api/egg-groups").ok = false → getEggGroups f = Except.ok [])
    ∧ (∀ (α : Type) (f : String → HttpResponse α) (id : ℕ),
        (f ("/api/pokemon/" ++ toString id)).ok = false →
        getPokemonDetails f id = Except.error "Pokemon not found")
    ∧ (∀ (α : Type) (f : String → HttpResponse α),
        (f "/api/breeding/calculate").ok = false →
        ∃ msg, calculateBreeding f = Except.error msg) := by
  refine ⟨?_, ?_, ?_, ?_, ?_, ?_, ?_, ?_⟩
  · intro α f q hq
    simp [searchPokemon, hq]
  · intro α f g q hq
    simp [searchPokemon, hq]
  · intro α f q hok
    by_cases hq : q.length < 2
    · simp [searchPokemon, hq]
    · simp [searchPokemon, hq, hok]
  · intro α f id hok
    simp [getCompatiblePartners, hok]
  · intro α f hok
    simp [getNatures, hok]
  · intro α f hok
    simp [getEggGroups, hok]
  · intro α f id hok
    simp [getPokemonDetails, hok]
  · intro α f hok
    exact ⟨(f "/api/breeding/calculate").detail.getD "Calculation failed",
      by simp [calculateBreeding, hok]⟩

/-- Witness for C10 at concrete inputs: a one-character query resolves to
ok [] on an always-failing network, and so do the other list helpers,
while the detail and calculate helpers reject. -/
theorem apiHelpers_error_behaviour_witness :
    searchPokemon badListNet "a" = Except.ok []
    ∧ searchPokemon badListNet "abc" = Except.ok []
    ∧ getCompatiblePartners badListNet 7 = Except.ok []
    ∧ getNatures badListNet = Except.ok []
    ∧ getEggGroups badListNet = Except.ok []
    ∧ getPokemonDetails badScalarNet 7 = Except.error "Pokemon not found"
    ∧ ∃ msg, calculateBreeding badScalarNet = Except.error msg :=
  ⟨apiHelpers_error_behaviour.1 ℕ badListNet "a" (by decide),
   apiHelpers_error_behaviour.2.2.1 ℕ badListNet "abc" rfl,
   apiHelpers_error_behaviour.2.2.2.1 ℕ badListNet 7 rfl,
   apiHelpers_error_behaviour.2.2.2.2.1 ℕ badListNet rfl,
   apiHelpers_error_behaviour.2.2.2.2.2.1 ℕ badListNet rfl,
   apiHelpers_error_behaviour.2.2.2.2.2.2.1 ℕ badScalarNet 7 rfl,
   apiHelpers_error_behaviour.2.2.2.2.2.2.2 ℕ badScalarNet rfl⟩

end Breeder
